import Mathlib

/-!
Shallow embedding of `main.py` of unifi-mongodb-logs-to-loki: the change-stream
consumer loop (`UnifiToLoki.run`), the per-event transform and delivery
(`UnifiToLoki.handle_change`), the label derivation
(`UnifiToLoki._labels_for_change`) and the document flattener (`flatten`).

Python dictionaries are embedded as association lists of `String × Value`
(well-formed when their keys are distinct, as every dictionary built by the
Python runtime is); Python values as the inductive `Value`.  Machine-level
details outside the claims (JSON string serialization of the flattened record,
float rounding of Python true division) are noted at the definitions that
abstract them.
-/

set_option autoImplicit false

namespace UnifiToLoki

/-- A Python value as it occurs in the documents this program handles:
`None`, booleans, integers, strings, and nested dictionaries. -/
inductive Value where
  | vNull : Value
  | vBool : Bool → Value
  | vInt : Int → Value
  | vStr : String → Value
  | vMap : List (String × Value) → Value

/-- A Python dictionary, embedded as an association list. -/
abbrev Doc := List (String × Value)

/-- Python `d[k]` / `d.get(k)`: first entry whose key equals `k` (on a well-formed
dictionary the first entry is the only one). -/
def dget (d : Doc) (k : String) : Option Value :=
  List.lookup k d

/-- Python `d[k] = v` on a dictionary: an existing key keeps its position and
gets the new value, a new key is appended at the end. -/
def dictInsert (d : Doc) (k : String) (v : Value) : Doc :=
  if d.any (fun p => p.1 == k) then
    d.map (fun p => if p.1 = k then (k, v) else p)
  else
    d ++ [(k, v)]

/-- Python `dict(items)`: build a dictionary from a pair list, left to right;
a repeated key keeps its first position and takes its last value. -/
def dictOfItems (l : List (String × Value)) : Doc :=
  l.foldl (fun d p => dictInsert d p.1 p.2) []

/-- Line 59 of `main.py`: `new_key = parent_key + separator + key if parent_key else key`
(line 59 of `main.py`). -/
def joinKey (parent sep k : String) : String :=
  if parent = "" then k else parent ++ sep ++ k

/-- The `items` list accumulated by `flatten` (lines 57-63 of `main.py`):
a nested mapping is recursively flattened (and, as in the source, passed
through `dict()` by the inner call) and its items spliced in; any other value
is kept as a leaf under its joined key. -/
def flatItems : List (String × Value) → String → String → List (String × Value)
  | [], _, _ => []
  | (k, Value.vMap m) :: rest, parent, sep =>
      dictOfItems (flatItems m (joinKey parent sep k) sep) ++ flatItems rest parent sep
  | (k, v) :: rest, parent, sep =>
      (joinKey parent sep k, v) :: flatItems rest parent sep

/-- The function `flatten(dictionary, parent_key, separator)` (lines 55-64 of `main.py`). -/
def flatten (d : Doc) (parent sep : String) : Doc :=
  dictOfItems (flatItems d parent sep)

/-- A value that is not a nested mapping: `flatten` keeps it as a leaf. -/
def isScalar : Value → Bool
  | Value.vMap _ => false
  | _ => true

/-- The key list of a dictionary. -/
def keysOf (d : Doc) : List String :=
  d.map Prod.fst

mutual

/-- Python `repr` restricted to the `Value` universe (string escaping beyond
the quotes themselves is not modelled; nothing in the claims depends on it). -/
def pyRepr : Value → String
  | Value.vNull => "None"
  | Value.vBool true => "True"
  | Value.vBool false => "False"
  | Value.vInt n => toString n
  | Value.vStr s => "\x27" ++ s ++ "\x27"
  | Value.vMap m => "\x7b" ++ String.intercalate ", " (pyReprEntries m) ++ "\x7d"

/-- Python `repr` of the entries of a dictionary, in order. -/
def pyReprEntries : List (String × Value) → List String
  | [] => []
  | (k, v) :: rest => ("\x27" ++ k ++ "\x27: " ++ pyRepr v) :: pyReprEntries rest

end

/-- Python `str`: identity on strings, `repr`-like rendering otherwise. -/
def pyStr : Value → String
  | Value.vStr s => s
  | v => pyRepr v

/-- The exceptions the embedded code can raise.  `keyError` embeds Python
`KeyError` (the spec calls a `KeyError` during the transform a
`MalformedDocumentError`); `attributeError` and `typeError` embed the
corresponding Python exceptions; `deliveryError` embeds the
`requests.exceptions.HTTPError` raised by `raise_for_status` (the spec's
`DeliveryError`), carrying the response status code and body. -/
inductive PyErr where
  | keyError : String → PyErr
  | attributeError : String → PyErr
  | typeError : String → PyErr
  | deliveryError : Nat → String → PyErr
deriving DecidableEq

/-- The list `UnifiToLoki.WANTED_COLLECTIONS` (lines 78-86 of `main.py`). -/
def WANTED_COLLECTIONS : List String :=
  ["admin_activity_log", "alarm", "alert", "event", "inspection_log",
   "threat_log_view", "trigger_log"]

/-- The constant `UnifiToLoki.LOKI_PORT` (line 90 of `main.py`). -/
def LOKI_PORT : Nat := 3100

/-- The URL built at line 171 of `main.py`. -/
def pushUrl (lokiHost : String) : String :=
  "http://" ++ lokiHost ++ ":" ++ toString LOKI_PORT ++ "/loki/api/v1/push"

/-- The filter read `change.get('ns', \x7b\x7d).get('coll')` (line 126 of `main.py`): a missing
`ns` defaults to the empty dictionary, so the collection comes out `None`;
a present `ns` that is not a mapping has no `.get` and raises
`AttributeError`. -/
def getColl (change : Doc) : Except PyErr (Option Value) :=
  match dget change "ns" with
  | none => .ok none
  | some (Value.vMap m) => .ok (dget m "coll")
  | some _ => .error (.attributeError "get")

/-- The membership test `coll in self.WANTED_COLLECTIONS` (line 127 of `main.py`): `None` and
non-string values compare unequal to every listed name. -/
def isWanted : Option Value → Bool
  | some (Value.vStr s) => WANTED_COLLECTIONS.contains s
  | _ => false

/-- A `change.get(k, dflt)` read as a string, as the `inspection_log` branch of
`_labels_for_change` needs for `+`: an absent key yields the default, a string
yields itself, any other present value makes the Python `+` concatenation
raise `TypeError` (encoded as `none`). -/
def pyStrOrAbsent (d : Doc) (k : String) (dflt : String) : Option String :=
  match dget d k with
  | none => some dflt
  | some (Value.vStr s) => some s
  | some _ => none

/-- The method `UnifiToLoki._labels_for_change` (lines 139-160 of `main.py`).  The chain
of `==` comparisons against collection names is only ever true for string
values; a collection matching none of the branches falls through and the
function returns the base label dictionary without a `row_key` entry. -/
def labelsForChange (host : String) (change : Doc) : Except PyErr Doc :=
  match dget change "collection" with
  | none => .error (.keyError "collection")
  | some coll =>
    let result : Doc :=
      [("source", Value.vStr "unifi-mongodb-watcher"),
       ("job", Value.vStr "unifi-mongodb-watcher"),
       ("host", Value.vStr host),
       ("collection", coll)]
    let collStr : Option String :=
      match coll with
      | Value.vStr s => some s
      | _ => none
    if collStr = some "admin_activity_log" then
      .ok (dictInsert result "row_key" ((dget change "key").getD (Value.vStr "unknown")))
    else if collStr = some "alarm" then
      .ok (dictInsert result "row_key" ((dget change "key").getD (Value.vStr "unknown")))
    else if collStr = some "alert" then
      .ok (dictInsert result "row_key" ((dget change "key").getD (Value.vStr "unknown")))
    else if collStr = some "event" then
      .ok (dictInsert result "row_key" ((dget change "key").getD (Value.vStr "unknown")))
    else if collStr = some "inspection_log" then
      match pyStrOrAbsent change "log_source" "", pyStrOrAbsent change "action" "" with
      | some ls, some ac =>
          .ok (dictInsert result "row_key" (Value.vStr (ls ++ "/" ++ ac)))
      | _, _ => .error (.typeError "can only concatenate str")
    else if collStr = some "threat_log_view" then
      .ok (dictInsert result "row_key" ((dget change "signature").getD (Value.vStr "unknown")))
    else if collStr = some "trigger_log" then
      .ok (dictInsert result "row_key" ((dget change "key").getD (Value.vStr "unknown")))
    else
      .ok result

/-- The `DeliveryPayload` built at lines 173-182 of `main.py`: the label set,
the nanosecond timestamp string, and the flattened record (whose JSON string
serialization by `json.dumps` is not modelled; the claims are about the
record's structure and the timestamp). -/
structure Payload where
  stream : Doc
  ts : String
  line : Doc

/-- The pure transform part of `UnifiToLoki.handle_change`
(lines 163-183 of `main.py`): inject `collection` from `ns.coll` into
`fullDocument`, stringify `_id`, normalize `time` and build the payload.
A non-integer `time` is rejected as a `TypeError` (Python would accept a
float; the documents the program consumes carry integer epoch fields).
Python true division `change['time'] / 1000` yields a float that `int()`
truncates toward zero; it is modelled as exact integer division truncating
toward zero (`Int.tdiv`). -/
def encodeChange (host : String) (change : Doc) : Except PyErr Payload :=
  match dget change "ns" with
  | none => .error (.keyError "ns")
  | some (Value.vMap nsm) =>
    match dget nsm "coll" with
    | none => .error (.keyError "coll")
    | some coll =>
      match dget change "fullDocument" with
      | none => .error (.keyError "fullDocument")
      | some (Value.vMap fd) =>
        let d0 := dictInsert fd "collection" coll
        match dget d0 "_id" with
        | none => .error (.keyError "_id")
        | some idv =>
          let d1 := dictInsert d0 "_id" (Value.vStr (pyStr idv))
          match dget d1 "time" with
          | none => .error (.keyError "time")
          | some (Value.vInt t) =>
            let d2 :=
              if 10 < (toString t).length then
                dictInsert d1 "time" (Value.vInt (t.tdiv 1000))
              else d1
            let tsec : Int := if 10 < (toString t).length then t.tdiv 1000 else t
            let ts := toString (tsec * 1000000000)
            match labelsForChange host d2 with
            | .error e => .error e
            | .ok labels => .ok { stream := labels, ts := ts, line := flatten d2 "" "_" }
          | some _ => .error (.typeError "time is not an integer")
      | some _ => .error (.typeError "fullDocument does not support item assignment")
  | some _ => .error (.typeError "ns is not subscriptable")

/-- An HTTP POST issued by the Ingestion Client (line 185 of `main.py`). -/
structure Post where
  url : String
  payload : Payload

/-- The library call `requests.Response.raise_for_status` as called at line 188 of `main.py`:
it raises `HTTPError` exactly for client-error (4xx) and server-error (5xx)
status codes, carrying the response; every other status returns normally. -/
def raiseForStatus (status : Nat) (body : String) : Except PyErr Unit :=
  if 400 ≤ status ∧ status < 600 then .error (.deliveryError status body) else .ok ()

/-- The method `UnifiToLoki.handle_change` (lines 162-194 of `main.py`), with the HTTP
response supplied as an oracle `resp = (status, body)`: if the transform
fails, no POST is issued and the exception propagates; otherwise exactly one
POST is issued and the outcome is that of `raise_for_status` on the
response. -/
def handleChange (host lokiHost : String) (change : Doc) (resp : Nat × String) :
    List Post × Except PyErr Unit :=
  match encodeChange host change with
  | .error e => ([], .error e)
  | .ok payload =>
      ([{ url := pushUrl lokiHost, payload := payload }], raiseForStatus resp.1 resp.2)

/-- One iteration of the consumer loop of `UnifiToLoki.run`
(lines 125-134 of `main.py`) on one change event: filter by collection,
dispatch wanted events through `handle_change`, and on a normal return
persist `change['_id']` as the new resume token.  The first component lists
the POSTs issued; the second is either the token written to
`resume_token.pkl` or the exception that aborted the iteration before the
persist step. -/
def runStep (host lokiHost : String) (change : Doc) (resp : Nat × String) :
    List Post × Except PyErr Value :=
  match getColl change with
  | .error e => ([], .error e)
  | .ok c =>
    match (if isWanted c then handleChange host lokiHost change resp else ([], .ok ())) with
    | (posts, .error e) => (posts, .error e)
    | (posts, .ok _) =>
      match dget change "_id" with
      | none => (posts, .error (.keyError "_id"))
      | some tok => (posts, .ok tok)

/-- The persisted `ResumePosition` after one loop iteration: an iteration
that raises leaves the durable slot at its previous value `st`; a normal
iteration overwrites it with the event's id. -/
def persistedAfter (host lokiHost : String) (st : Option Value) (change : Doc)
    (resp : Nat × String) : Option Value :=
  match (runStep host lokiHost change resp).2 with
  | .ok tok => some tok
  | .error _ => st


/-! ### The spec-side row-key table and concrete example documents -/

/-- A string field as the §4.2 table reads it: its value when present, the
empty string when missing. -/
def specStrField (doc : Doc) (k : String) : String :=
  match dget doc k with
  | some (Value.vStr s) => s
  | _ => ""

/-- The `row_key` column of the table in §4.2 of the spec, transcribed from the
spec's words (not from the code) for comparison against
`labelsForChange`: `key` with fallback `unknown` for the five key-keyed
collections, `log_source`, `/`, `action` with empty-string fallbacks for
`inspection_log`, `signature` with fallback `unknown` for `threat_log_view`,
nothing for any other collection. -/
def specRowKey (collection : String) (doc : Doc) : Option Value :=
  if collection = "admin_activity_log" ∨ collection = "alarm" ∨ collection = "alert" ∨
      collection = "event" ∨ collection = "trigger_log" then
    some ((dget doc "key").getD (Value.vStr "unknown"))
  else if collection = "inspection_log" then
    some (Value.vStr (specStrField doc "log_source" ++ "/" ++ specStrField doc "action"))
  else if collection = "threat_log_view" then
    some ((dget doc "signature").getD (Value.vStr "unknown"))
  else
    none

/-- Concrete change events and documents used by the witness theorems below:
complete wanted events in millisecond and second resolution, an unwanted
event, events with missing fields, and documents with nested or unwanted
collections. -/
def c1doc : Doc :=
  [("_id", Value.vStr "tok1"),
   ("ns", Value.vMap [("db", Value.vStr "unifi"), ("coll", Value.vStr "alert")]),
   ("fullDocument", Value.vMap
     [("_id", Value.vStr "d1"), ("time", Value.vInt 1700000003),
      ("key", Value.vStr "EVT_B")])]

def c2doc : Doc :=
  [("_id", Value.vStr "tok2"),
   ("ns", Value.vMap [("coll", Value.vStr "alert")]),
   ("fullDocument", Value.vMap
     [("_id", Value.vStr "d2"), ("time", Value.vInt 1700000002),
      ("key", Value.vStr "EVT_A")])]

def c3doc : Doc :=
  [("collection", Value.vStr "inspection_log"),
   ("log_source", Value.vStr "fw"), ("action", Value.vStr "block")]

def c4docMs : Doc :=
  [("_id", Value.vStr "tok4a"),
   ("ns", Value.vMap [("coll", Value.vStr "event")]),
   ("fullDocument", Value.vMap
     [("_id", Value.vStr "d4"), ("time", Value.vInt 1700000000000),
      ("key", Value.vStr "EVT_T")])]

def c4docS : Doc :=
  [("_id", Value.vStr "tok4b"),
   ("ns", Value.vMap [("coll", Value.vStr "event")]),
   ("fullDocument", Value.vMap
     [("_id", Value.vStr "d4"), ("time", Value.vInt 1700000000),
      ("key", Value.vStr "EVT_T")])]

def c5doc : Doc :=
  [("_id", Value.vStr "tok5"),
   ("ns", Value.vMap [("db", Value.vStr "unifi"), ("coll", Value.vStr "sessions")]),
   ("fullDocument", Value.vMap [("_id", Value.vStr "d5"), ("time", Value.vInt 1700000001)])]

def c6doc : Doc :=
  [("_id", Value.vStr "tok6"),
   ("ns", Value.vMap [("coll", Value.vStr "alarm")]),
   ("fullDocument", Value.vMap
     [("_id", Value.vStr "d6"), ("key", Value.vStr "EVT_NO_TIME")])]

def c7doc : Doc := [("collection", Value.vStr "device")]

def c8doc : Doc :=
  [("a", Value.vInt 1), ("b", Value.vStr "z"), ("c", Value.vBool true)]

def c9doc : Doc :=
  [("collection", Value.vStr "alarm"),
   ("sub", Value.vMap [("key", Value.vStr "deep")]),
   ("x", Value.vInt 5)]

def c9docIns : Doc :=
  [("collection", Value.vStr "inspection_log"),
   ("sub", Value.vMap [("log_source", Value.vStr "fw")]),
   ("action", Value.vStr "block")]

def c10doc : Doc :=
  [("_id", Value.vStr "tok10"), ("operationType", Value.vStr "insert")]

/-! ### Helper lemmas about the dictionary and flattening operations -/

theorem lookup_mem {l : List (String × Value)} {k : String} {v : Value}
    (h : List.lookup k l = some v) : (k, v) ∈ l := by
  induction l with
  | nil => simp [List.lookup] at h
  | cons p rest ih =>
    obtain ⟨a, b⟩ := p
    cases hk : (k == a) with
    | true =>
      simp [List.lookup, hk] at h
      simp [h, (by simpa using hk : k = a)]
    | false =>
      simp [List.lookup, hk] at h
      exact List.mem_cons_of_mem _ (ih h)

theorem lookup_none_of_any_false {l : List (String × Value)} {k : String}
    (h : l.any (fun p => p.1 == k) = false) : List.lookup k l = none := by
  induction l with
  | nil => rfl
  | cons p rest ih =>
    obtain ⟨a, b⟩ := p
    simp only [List.any_cons, Bool.or_eq_false_iff] at h
    have hka : (k == a) = false := by
      have : ¬(a = k) := by simpa using h.1
      exact beq_false_of_ne (fun hh => this hh.symm)
    have : List.lookup k ((a, b) :: rest) = List.lookup k rest := by
      simp [List.lookup, hka]
    rw [this]
    exact ih (by simpa using h.2)

theorem lookup_append_left {l₁ l₂ : List (String × Value)} {k : String} {v : Value}
    (h : List.lookup k l₁ = some v) : List.lookup k (l₁ ++ l₂) = some v := by
  induction l₁ with
  | nil => simp [List.lookup] at h
  | cons p rest ih =>
    obtain ⟨a, b⟩ := p
    cases hk : (k == a) with
    | true => simp_all [List.lookup, hk]
    | false =>
      simp only [List.cons_append, List.lookup, hk] at h ⊢
      exact ih h

theorem lookup_append_right {l₁ l₂ : List (String × Value)} {k : String}
    (h : List.lookup k l₁ = none) : List.lookup k (l₁ ++ l₂) = List.lookup k l₂ := by
  induction l₁ with
  | nil => simp
  | cons p rest ih =>
    obtain ⟨a, b⟩ := p
    cases hk : (k == a) with
    | true => simp [List.lookup, hk] at h
    | false =>
      simp only [List.cons_append, List.lookup, hk] at h ⊢
      exact ih h

theorem lookup_mapReplace {d : Doc} {k : String} (v : Value)
    (hany : d.any (fun p => p.1 == k) = true) :
    List.lookup k (d.map (fun p => if p.1 = k then (k, v) else p)) = some v := by
  induction d with
  | nil => simp at hany
  | cons p rest ih =>
    obtain ⟨a, b⟩ := p
    by_cases hak : a = k
    · subst hak
      rw [List.map_cons, if_pos rfl]
      simp [List.lookup]
    · have hrest : rest.any (fun p => p.1 == k) = true := by
        simpa [List.any_cons, hak] using hany
      have hka : (k == a) = false := beq_false_of_ne (fun hh => hak hh.symm)
      rw [List.map_cons, if_neg hak]
      simp only [List.lookup, hka]
      exact ih hrest

theorem lookup_mapReplace_ne {d : Doc} {k k' : String} (v : Value) (h : k' ≠ k) :
    List.lookup k' (d.map (fun p => if p.1 = k then (k, v) else p)) = List.lookup k' d := by
  induction d with
  | nil => rfl
  | cons p rest ih =>
    obtain ⟨a, b⟩ := p
    by_cases hak : a = k
    · subst hak
      have hk'a : (k' == a) = false := beq_false_of_ne h
      rw [List.map_cons, if_pos rfl]
      simp only [List.lookup, hk'a]
      exact ih
    · rw [List.map_cons, if_neg hak]
      cases hk'a : (k' == a) with
      | true => simp only [List.lookup, hk'a]
      | false =>
        simp only [List.lookup, hk'a]
        exact ih

theorem dget_dictInsert_self (d : Doc) (k : String) (v : Value) :
    dget (dictInsert d k v) k = some v := by
  unfold dget dictInsert
  cases hany : d.any (fun p => p.1 == k) with
  | true => simp [hany, lookup_mapReplace v hany]
  | false =>
    simp only [hany, Bool.false_eq_true, if_false]
    rw [lookup_append_right (lookup_none_of_any_false hany)]
    simp [List.lookup]

theorem dget_dictInsert_ne (d : Doc) (k k' : String) (v : Value) (h : k' ≠ k) :
    dget (dictInsert d k v) k' = dget d k' := by
  unfold dget dictInsert
  cases hany : d.any (fun p => p.1 == k) with
  | true => simp [hany, lookup_mapReplace_ne v h]
  | false =>
    simp only [hany, Bool.false_eq_true, if_false]
    cases hl : List.lookup k' d with
    | some w => exact lookup_append_left hl
    | none =>
      rw [lookup_append_right hl]
      simp [List.lookup, beq_false_of_ne h]

theorem dictInsert_eq_map {d : Doc} {k : String} (v : Value)
    (hany : d.any (fun p => p.1 == k) = true) :
    dictInsert d k v = d.map (fun p => if p.1 = k then (k, v) else p) := by
  unfold dictInsert
  rw [if_pos (by simp [hany])]

theorem dictInsert_eq_append {d : Doc} {k : String} (v : Value)
    (hany : d.any (fun p => p.1 == k) = false) :
    dictInsert d k v = d ++ [(k, v)] := by
  unfold dictInsert
  rw [if_neg (by simp [hany])]

theorem keysOf_mapReplace (d : Doc) (k : String) (v : Value) :
    keysOf (d.map (fun p => if p.1 = k then (k, v) else p)) = keysOf d := by
  induction d with
  | nil => rfl
  | cons p rest ih =>
    obtain ⟨a, b⟩ := p
    by_cases hak : a = k
    · subst hak
      rw [List.map_cons, if_pos rfl]
      simpa [keysOf] using ih
    · rw [List.map_cons, if_neg hak]
      simpa [keysOf] using ih

theorem not_mem_keysOf_of_any_false {d : Doc} {k : String}
    (h : d.any (fun p => p.1 == k) = false) : k ∉ keysOf d := by
  intro hk
  simp only [keysOf, List.mem_map] at hk
  obtain ⟨p, hp, hpk⟩ := hk
  have := List.any_eq_false.mp h p hp
  simp [hpk] at this

theorem self_mem_keysOf_dictInsert (d : Doc) (k : String) (v : Value) :
    k ∈ keysOf (dictInsert d k v) := by
  cases hany : d.any (fun p => p.1 == k) with
  | true =>
    rw [dictInsert_eq_map v hany, keysOf_mapReplace]
    simp only [List.any_eq_true] at hany
    obtain ⟨p, hp, hpk⟩ := hany
    simp only [keysOf, List.mem_map]
    exact ⟨p, hp, by simpa using hpk⟩
  | false =>
    rw [dictInsert_eq_append v hany]
    simp [keysOf]

theorem mem_keysOf_dictInsert {d : Doc} {a : String} (k : String) (v : Value)
    (h : a ∈ keysOf d) : a ∈ keysOf (dictInsert d k v) := by
  cases hany : d.any (fun p => p.1 == k) with
  | true => rw [dictInsert_eq_map v hany, keysOf_mapReplace]; exact h
  | false =>
    rw [dictInsert_eq_append v hany]
    simp only [keysOf, List.map_append, List.mem_append]
    left
    exact h

theorem keysOf_dictInsert_nodup {d : Doc} (k : String) (v : Value)
    (h : (keysOf d).Nodup) : (keysOf (dictInsert d k v)).Nodup := by
  cases hany : d.any (fun p => p.1 == k) with
  | true => rw [dictInsert_eq_map v hany, keysOf_mapReplace]; exact h
  | false =>
    have hk := not_mem_keysOf_of_any_false hany
    rw [dictInsert_eq_append v hany]
    simp only [keysOf, List.map_append, List.map_cons, List.map_nil]
    rw [List.nodup_append]
    refine ⟨h, List.nodup_singleton k, ?_⟩
    intro a ha hb
    simp only [List.mem_singleton] at hb
    exact hk (hb ▸ ha)

theorem foldl_dictInsert_nodup (l : List (String × Value)) :
    ∀ acc : Doc, (keysOf acc).Nodup →
      (keysOf (l.foldl (fun d p => dictInsert d p.1 p.2) acc)).Nodup := by
  induction l with
  | nil => intro acc h; exact h
  | cons p rest ih =>
    intro acc h
    exact ih _ (keysOf_dictInsert_nodup p.1 p.2 h)

theorem keysOf_dictOfItems_nodup (l : List (String × Value)) :
    (keysOf (dictOfItems l)).Nodup :=
  foldl_dictInsert_nodup l [] (by simp [keysOf])

theorem foldl_dictInsert_eq_append (l : List (String × Value)) :
    ∀ acc : Doc, (keysOf (acc ++ l)).Nodup →
      l.foldl (fun d p => dictInsert d p.1 p.2) acc = acc ++ l := by
  induction l with
  | nil => intro acc _; simp
  | cons p rest ih =>
    obtain ⟨k, v⟩ := p
    intro acc h
    have hk : k ∉ keysOf acc := by
      simp only [keysOf, List.map_append, List.nodup_append] at h
      intro hmem
      exact h.2.2 hmem (by simp)
    have hany : acc.any (fun q => q.1 == k) = false := by
      rw [List.any_eq_false]
      intro q hq
      rcases eq_or_ne q.1 k with hqk | hqk
      · exact absurd (by simp only [keysOf, List.mem_map]; exact ⟨q, hq, hqk⟩) hk
      · simp [hqk]
    rw [List.foldl_cons, dictInsert_eq_append v hany,
      ih (acc ++ [(k, v)]) (by simpa using h), List.append_assoc]
    rfl

theorem dictOfItems_of_nodup {l : List (String × Value)}
    (h : (keysOf l).Nodup) : dictOfItems l = l := by
  simpa using foldl_dictInsert_eq_append l [] (by simpa using h)

theorem dictOfItems_idem (l : List (String × Value)) :
    dictOfItems (dictOfItems l) = dictOfItems l :=
  dictOfItems_of_nodup (keysOf_dictOfItems_nodup l)

theorem scalar_dictInsert {d : Doc} {k : String} {v : Value}
    (hd : ∀ p ∈ d, isScalar p.2 = true) (hv : isScalar v = true) :
    ∀ p ∈ dictInsert d k v, isScalar p.2 = true := by
  intro p hp
  cases hany : d.any (fun q => q.1 == k) with
  | true =>
    rw [dictInsert_eq_map v hany] at hp
    obtain ⟨q, hq, hqe⟩ := List.mem_map.mp hp
    by_cases hqk : q.1 = k
    · rw [if_pos hqk] at hqe
      rw [← hqe]
      exact hv
    · rw [if_neg hqk] at hqe
      rw [← hqe]
      exact hd q hq
  | false =>
    rw [dictInsert_eq_append v hany] at hp
    rcases List.mem_append.mp hp with hl | hr
    · exact hd p hl
    · simp only [List.mem_singleton] at hr
      rw [hr]
      exact hv

theorem scalar_foldl_dictInsert (l : List (String × Value)) :
    ∀ acc : Doc, (∀ p ∈ acc, isScalar p.2 = true) → (∀ p ∈ l, isScalar p.2 = true) →
      ∀ p ∈ l.foldl (fun d q => dictInsert d q.1 q.2) acc, isScalar p.2 = true := by
  induction l with
  | nil => intro acc ha _ p hp; exact ha p hp
  | cons q rest ih =>
    intro acc ha hl p hp
    refine ih _ (scalar_dictInsert ha (hl q (List.mem_cons_self q rest))) ?_ p hp
    intro r hr
    exact hl r (List.mem_cons_of_mem q hr)

theorem scalar_dictOfItems {l : List (String × Value)}
    (h : ∀ p ∈ l, isScalar p.2 = true) :
    ∀ p ∈ dictOfItems l, isScalar p.2 = true :=
  scalar_foldl_dictInsert l [] (by intro p hp; cases hp) h

theorem flatItems_of_scalar {d : Doc} (sep : String)
    (h : ∀ p ∈ d, isScalar p.2 = true) : flatItems d "" sep = d := by
  induction d with
  | nil => simp [flatItems]
  | cons p rest ih =>
    obtain ⟨k, v⟩ := p
    have hv : isScalar v = true := h (k, v) (List.mem_cons_self _ _)
    have hrest : ∀ q ∈ rest, isScalar q.2 = true :=
      fun q hq => h q (List.mem_cons_of_mem _ hq)
    cases v with
    | vMap m => simp [isScalar] at hv
    | vNull => simp [flatItems, joinKey, ih hrest]
    | vBool b => simp [flatItems, joinKey, ih hrest]
    | vInt n => simp [flatItems, joinKey, ih hrest]
    | vStr s => simp [flatItems, joinKey, ih hrest]

theorem mem_keysOf_of_mem {l : List (String × Value)} {k : String} {v : Value}
    (h : (k, v) ∈ l) : k ∈ keysOf l :=
  List.mem_map_of_mem Prod.fst h

theorem exists_of_mem_keysOf {l : List (String × Value)} {k : String}
    (h : k ∈ keysOf l) : ∃ v, (k, v) ∈ l := by
  simp only [keysOf, List.mem_map] at h
  obtain ⟨p, hp, hk⟩ := h
  exact ⟨p.2, by rwa [show (k, p.2) = p from by rw [← hk]]⟩

theorem mem_keysOf_foldl_dictInsert {a : String} (l : List (String × Value)) :
    ∀ acc : Doc, (a ∈ keysOf acc ∨ a ∈ keysOf l) →
      a ∈ keysOf (l.foldl (fun d q => dictInsert d q.1 q.2) acc) := by
  induction l with
  | nil =>
    intro acc h
    rcases h with h | h
    · exact h
    · cases h
  | cons q rest ih =>
    intro acc h
    rw [List.foldl_cons]
    rcases h with h | h
    · exact ih _ (Or.inl (mem_keysOf_dictInsert q.1 q.2 h))
    · have h2 : a = q.1 ∨ ∃ x, (a, x) ∈ rest := by simpa [keysOf] using h
      rcases h2 with heq | ⟨x, hx⟩
      · refine ih _ (Or.inl ?_)
        rw [heq]
        exact self_mem_keysOf_dictInsert acc q.1 q.2
      · exact ih _ (Or.inr (mem_keysOf_of_mem hx))

theorem mem_keysOf_dictOfItems {l : List (String × Value)} {a : String}
    (h : a ∈ keysOf l) : a ∈ keysOf (dictOfItems l) :=
  mem_keysOf_foldl_dictInsert l [] (Or.inr h)

theorem mem_flatItems_of_mem_map {d : Doc} {k : String} {m : Doc} (parent sep : String)
    (hmem : (k, Value.vMap m) ∈ d) :
    ∀ x ∈ dictOfItems (flatItems m (joinKey parent sep k) sep),
      x ∈ flatItems d parent sep := by
  induction d with
  | nil => cases hmem
  | cons p rest ih =>
    intro x hx
    rcases List.mem_cons.mp hmem with heq | htail
    · rw [← heq]
      simp only [flatItems]
      exact List.mem_append_left _ hx
    · obtain ⟨a, b⟩ := p
      cases b with
      | vMap m2 =>
        simp only [flatItems]
        exact List.mem_append_right _ (ih htail x hx)
      | vNull => simp only [flatItems]; exact List.mem_cons_of_mem _ (ih htail x hx)
      | vBool c => simp only [flatItems]; exact List.mem_cons_of_mem _ (ih htail x hx)
      | vInt n => simp only [flatItems]; exact List.mem_cons_of_mem _ (ih htail x hx)
      | vStr s => simp only [flatItems]; exact List.mem_cons_of_mem _ (ih htail x hx)

theorem mem_flatItems_of_mem_scalar {d : Doc} {k : String} {v : Value} (parent sep : String)
    (hmem : (k, v) ∈ d) (hv : isScalar v = true) :
    (joinKey parent sep k, v) ∈ flatItems d parent sep := by
  induction d with
  | nil => cases hmem
  | cons p rest ih =>
    rcases List.mem_cons.mp hmem with heq | htail
    · rw [← heq]
      cases v with
      | vMap m => simp [isScalar] at hv
      | vNull => simp only [flatItems]; exact List.mem_cons_self _ _
      | vBool c => simp only [flatItems]; exact List.mem_cons_self _ _
      | vInt n => simp only [flatItems]; exact List.mem_cons_self _ _
      | vStr s => simp only [flatItems]; exact List.mem_cons_self _ _
    · obtain ⟨a, b⟩ := p
      cases b with
      | vMap m2 => simp only [flatItems]; exact List.mem_append_right _ (ih htail)
      | vNull => simp only [flatItems]; exact List.mem_cons_of_mem _ (ih htail)
      | vBool c => simp only [flatItems]; exact List.mem_cons_of_mem _ (ih htail)
      | vInt n => simp only [flatItems]; exact List.mem_cons_of_mem _ (ih htail)
      | vStr s => simp only [flatItems]; exact List.mem_cons_of_mem _ (ih htail)

/-! ### Claim theorems -/

theorem runStep_skip {change : Doc} {c : Option Value} {tok : Value}
    (host lokiHost : String) (resp : Nat × String)
    (hc : getColl change = .ok c) (hw : isWanted c = false)
    (hid : dget change "_id" = some tok) :
    runStep host lokiHost change resp = ([], .ok tok) := by
  unfold runStep
  rw [hc]
  simp [hw, hid]

theorem persistedAfter_of_runStep {host lokiHost : String} {st : Option Value}
    {change : Doc} {resp : Nat × String} {posts : List Post} {tok : Value}
    (h : runStep host lokiHost change resp = (posts, .ok tok)) :
    persistedAfter host lokiHost st change resp = some tok := by
  unfold persistedAfter
  rw [h]

-- C5 ---------------------------------------------------------------------

/-- C5: an event whose collection is not in the wanted set triggers no
Ingestion Client call (the POST list of the loop iteration is empty), yet the
iteration still persists the event's `_id` as the new ResumePosition. -/
theorem unwanted_event_skipped_but_persisted (host lokiHost : String)
    (st : Option Value) (change : Doc) (resp : Nat × String)
    (c : Option Value) (tok : Value)
    (hc : getColl change = .ok c) (hw : isWanted c = false)
    (hid : dget change "_id" = some tok) :
    runStep host lokiHost change resp = ([], Except.ok tok) ∧
    persistedAfter host lokiHost st change resp = some tok := by
  have h1 := runStep_skip host lokiHost resp hc hw hid
  exact ⟨h1, persistedAfter_of_runStep h1⟩

/-- C5 witness: a concrete `sessions` event is skipped with no POST and its
token persisted. -/
theorem unwanted_event_skipped_but_persisted_witness :
    runStep "examplehost" "loki.example" c5doc (200, "ok") = ([], Except.ok (Value.vStr "tok5")) ∧
    persistedAfter "examplehost" "loki.example" none c5doc (200, "ok") = some (Value.vStr "tok5") :=
  unwanted_event_skipped_but_persisted "examplehost" "loki.example" none c5doc (200, "ok")
    (some (Value.vStr "sessions")) (Value.vStr "tok5") rfl rfl rfl

-- C10 --------------------------------------------------------------------

/-- C10: a change event with no `ns` entry, or whose `ns` mapping has no
`coll` field, filters to collection `None`, which is treated as unwanted: the
event is skipped without error and its `_id` still persisted. -/
theorem missing_ns_collection_skipped (host lokiHost : String) (st : Option Value)
    (change : Doc) (resp : Nat × String) (tok : Value)
    (hns : dget change "ns" = none ∨
      ∃ m, dget change "ns" = some (Value.vMap m) ∧ dget m "coll" = none)
    (hid : dget change "_id" = some tok) :
    getColl change = Except.ok none ∧
    isWanted none = false ∧
    runStep host lokiHost change resp = ([], Except.ok tok) ∧
    persistedAfter host lokiHost st change resp = some tok := by
  have hc : getColl change = Except.ok none := by
    rcases hns with h | ⟨m, h1, h2⟩
    · unfold getColl
      rw [h]
    · unfold getColl
      rw [h1]
      simp [h2]
  have h1 := runStep_skip host lokiHost resp hc rfl hid
  exact ⟨hc, rfl, h1, persistedAfter_of_runStep h1⟩

/-- C10 witness: a concrete event with no `ns` entry is skipped and its token
persisted. -/
theorem missing_ns_collection_skipped_witness :
    getColl c10doc = Except.ok none ∧
    isWanted none = false ∧
    runStep "examplehost" "loki.example" c10doc (200, "ok") = ([], Except.ok (Value.vStr "tok10")) ∧
    persistedAfter "examplehost" "loki.example" none c10doc (200, "ok") = some (Value.vStr "tok10") :=
  missing_ns_collection_skipped "examplehost" "loki.example" none c10doc (200, "ok")
    (Value.vStr "tok10") (Or.inl rfl) rfl

-- C2 ---------------------------------------------------------------------

/-- C2 counterexample: a delivery attempt that gets HTTP 301 — not a 2xx
status — still succeeds, because `raise_for_status` only raises for 4xx/5xx;
so "succeeds exactly on 2xx" is false on the code. -/
theorem delivery_non_2xx_success_counterexample :
    (handleChange "examplehost" "loki.example" c2doc (301, "Moved Permanently")).2 = Except.ok () ∧
    ¬ (200 ≤ 301 ∧ 301 < 300) :=
  ⟨rfl, by decide⟩

/-- C2 amended: a delivery attempt succeeds exactly when the response status
is outside 400-599; every 4xx/5xx status fails with a DeliveryError carrying
the status code and the response body. -/
theorem delivery_succeeds_iff_not_4xx_5xx (host lokiHost : String) (change : Doc)
    (resp : Nat × String) (p : Payload)
    (henc : encodeChange host change = Except.ok p) :
    ((handleChange host lokiHost change resp).2 = Except.ok () ↔
      ¬ (400 ≤ resp.1 ∧ resp.1 < 600)) ∧
    (400 ≤ resp.1 → resp.1 < 600 →
      (handleChange host lokiHost change resp).2 =
        Except.error (PyErr.deliveryError resp.1 resp.2)) := by
  unfold handleChange
  rw [henc]
  unfold raiseForStatus
  constructor
  · by_cases h : 400 ≤ resp.1 ∧ resp.1 < 600
    · simp [h]
    · simp [h]
  · intro h1 h2
    simp [h1, h2]

/-- C2 witness: on a concrete complete event and a 503 response, the iff and
the error shape hold. -/
theorem delivery_succeeds_iff_not_4xx_5xx_witness :
    ((handleChange "examplehost" "loki.example" c2doc (503, "overloaded")).2 = Except.ok () ↔
      ¬ (400 ≤ 503 ∧ 503 < 600)) ∧
    (400 ≤ 503 → 503 < 600 →
      (handleChange "examplehost" "loki.example" c2doc (503, "overloaded")).2 =
        Except.error (PyErr.deliveryError 503 "overloaded")) :=
  delivery_succeeds_iff_not_4xx_5xx "examplehost" "loki.example" c2doc (503, "overloaded") _ rfl

-- C7 ---------------------------------------------------------------------

/-- C7 counterexample: `_labels_for_change` on a document whose `collection`
is not one of the seven wanted names returns normally (no ConfigurationError,
no error at all) — the label set simply lacks a `row_key` entry. -/
theorem unknown_collection_no_failure_counterexample :
    (labelsForChange "examplehost" c7doc).isOk = true ∧
    dget ((labelsForChange "examplehost" c7doc).toOption.getD []) "row_key" = none :=
  ⟨rfl, rfl⟩

/-- C7 amended: for a document whose `collection` field is a string not in the
wanted set, the Label Deriver does not fail; it returns the base label set
(`source`, `job`, `host`, `collection`) with no `row_key` entry. -/
theorem unknown_collection_returns_base_labels (host : String) (d : Doc) (s : String)
    (hc : dget d "collection" = some (Value.vStr s))
    (hw : s ∉ WANTED_COLLECTIONS) :
    labelsForChange host d =
      Except.ok
        [("source", Value.vStr "unifi-mongodb-watcher"),
         ("job", Value.vStr "unifi-mongodb-watcher"),
         ("host", Value.vStr host),
         ("collection", Value.vStr s)] ∧
    dget
      [("source", Value.vStr "unifi-mongodb-watcher"),
       ("job", Value.vStr "unifi-mongodb-watcher"),
       ("host", Value.vStr host),
       ("collection", Value.vStr s)] "row_key" = none := by
  have hw7 : ¬ (s = "admin_activity_log" ∨ s = "alarm" ∨ s = "alert" ∨ s = "event" ∨
      s = "inspection_log" ∨ s = "threat_log_view" ∨ s = "trigger_log") := by
    simpa [WANTED_COLLECTIONS] using hw
  push_neg at hw7
  obtain ⟨h1, h2, h3, h4, h5, h6, h7⟩ := hw7
  constructor
  · unfold labelsForChange
    rw [hc]
    simp [h1, h2, h3, h4, h5, h6, h7]
  · rfl

/-- C7 witness: concrete unwanted collection `device`. -/
theorem unknown_collection_returns_base_labels_witness :
    labelsForChange "examplehost" c7doc =
      Except.ok
        [("source", Value.vStr "unifi-mongodb-watcher"),
         ("job", Value.vStr "unifi-mongodb-watcher"),
         ("host", Value.vStr "examplehost"),
         ("collection", Value.vStr "device")] ∧
    dget
      [("source", Value.vStr "unifi-mongodb-watcher"),
       ("job", Value.vStr "unifi-mongodb-watcher"),
       ("host", Value.vStr "examplehost"),
       ("collection", Value.vStr "device")] "row_key" = none :=
  unknown_collection_returns_base_labels "examplehost" c7doc "device" rfl (by decide)

theorem runStep_getColl_error {change : Doc} {e : PyErr}
    {host lokiHost : String} {resp : Nat × String}
    (he : getColl change = Except.error e) :
    runStep host lokiHost change resp = ([], Except.error e) := by
  unfold runStep
  rw [he]

theorem runStep_skip_noid {change : Doc} {c : Option Value}
    {host lokiHost : String} {resp : Nat × String}
    (hg : getColl change = Except.ok c) (hw : isWanted c = false)
    (hid : dget change "_id" = none) :
    runStep host lokiHost change resp = ([], Except.error (PyErr.keyError "_id")) := by
  unfold runStep
  rw [hg]
  simp [hw, hid]

theorem runStep_wanted_ok {change : Doc} {c : Option Value} {tok : Value}
    {host lokiHost : String} {resp : Nat × String}
    (hg : getColl change = Except.ok c) (hw : isWanted c = true)
    (hh : (handleChange host lokiHost change resp).2 = Except.ok ())
    (hid : dget change "_id" = some tok) :
    (runStep host lokiHost change resp).2 = Except.ok tok := by
  unfold runStep
  rw [hg]
  rcases hp : handleChange host lokiHost change resp with ⟨posts, res⟩
  rw [hp] at hh
  simp only at hh
  subst hh
  simp [hw, hp, hid]

theorem runStep_wanted_ok_noid {change : Doc} {c : Option Value}
    {host lokiHost : String} {resp : Nat × String}
    (hg : getColl change = Except.ok c) (hw : isWanted c = true)
    (hh : (handleChange host lokiHost change resp).2 = Except.ok ())
    (hid : dget change "_id" = none) :
    (runStep host lokiHost change resp).2 = Except.error (PyErr.keyError "_id") := by
  unfold runStep
  rw [hg]
  rcases hp : handleChange host lokiHost change resp with ⟨posts, res⟩
  rw [hp] at hh
  simp only at hh
  subst hh
  simp [hw, hp, hid]

theorem runStep_wanted_error {change : Doc} {c : Option Value} {e : PyErr}
    {host lokiHost : String} {resp : Nat × String}
    (hg : getColl change = Except.ok c) (hw : isWanted c = true)
    (hh : (handleChange host lokiHost change resp).2 = Except.error e) :
    (runStep host lokiHost change resp).2 = Except.error e := by
  unfold runStep
  rw [hg]
  rcases hp : handleChange host lokiHost change resp with ⟨posts, res⟩
  rw [hp] at hh
  simp only at hh
  subst hh
  simp [hw, hp]

theorem runStep_ok_inv {host lokiHost : String} {change : Doc} {resp : Nat × String}
    {tok : Value} (h : (runStep host lokiHost change resp).2 = Except.ok tok) :
    dget change "_id" = some tok ∧
    ∃ c, getColl change = Except.ok c ∧
      (isWanted c = false ∨ (handleChange host lokiHost change resp).2 = Except.ok ()) := by
  cases hg : getColl change with
  | error e =>
    rw [runStep_getColl_error hg] at h
    simp at h
  | ok c =>
    cases hw : isWanted c with
    | false =>
      cases hid : dget change "_id" with
      | none =>
        rw [runStep_skip_noid hg hw hid] at h
        simp at h
      | some tok2 =>
        rw [runStep_skip host lokiHost resp hg hw hid] at h
        simp only [Except.ok.injEq] at h
        subst h
        exact ⟨rfl, c, rfl, Or.inl hw⟩
    | true =>
      cases hh : (handleChange host lokiHost change resp).2 with
      | error e =>
        rw [runStep_wanted_error hg hw hh] at h
        simp at h
      | ok u =>
        cases u
        cases hid : dget change "_id" with
        | none =>
          rw [runStep_wanted_ok_noid hg hw hh hid] at h
          simp at h
        | some tok2 =>
          rw [runStep_wanted_ok hg hw hh hid] at h
          simp only [Except.ok.injEq] at h
          subst h
          exact ⟨rfl, c, rfl, Or.inr rfl⟩

-- C1 ---------------------------------------------------------------------

/-- C1 counterexample: a wanted `alert` event whose delivery gets HTTP 301
— not a 2xx status, so not "successfully delivered (HTTP success)" in the
sense §4.4 of the spec gives that parenthetical — is neither skipped nor
2xx-delivered, yet the persisted ResumePosition is still advanced to its id,
because `raise_for_status` does not raise on 3xx. -/
theorem resume_position_non_2xx_counterexample :
    persistedAfter "examplehost" "loki.example" none c1doc (301, "Moved Permanently") =
      some (Value.vStr "tok1") ∧
    getColl c1doc = Except.ok (some (Value.vStr "alert")) ∧
    isWanted (some (Value.vStr "alert")) = true ∧
    ¬ (200 ≤ 301 ∧ 301 < 300) :=
  ⟨rfl, rfl, rfl, by decide⟩

/-- C1 (amended: "successfully delivered (HTTP success)" reads "the delivery
call returned without error", which per `raise_for_status` is any status
outside 400-599): the persisted ResumePosition is updated to an event's id
exactly when the loop iteration finishes normally, which happens only for
events that were skipped as unwanted or whose delivery call returned without
error; any raised error — in particular a failed delivery attempt on a wanted
event — leaves the persisted position at its previous value. -/
theorem resume_position_updated_iff_delivered_or_skipped
    (host lokiHost : String) (st : Option Value) (change : Doc) (resp : Nat × String) :
    (∀ e : PyErr, (runStep host lokiHost change resp).2 = Except.error e →
       persistedAfter host lokiHost st change resp = st) ∧
    (∀ tok : Value, (runStep host lokiHost change resp).2 = Except.ok tok →
       dget change "_id" = some tok ∧
       persistedAfter host lokiHost st change resp = some tok ∧
       ((∃ c, getColl change = Except.ok c ∧ isWanted c = false) ∨
        (handleChange host lokiHost change resp).2 = Except.ok ())) ∧
    (∀ (c : Option Value) (e : PyErr), getColl change = Except.ok c →
       isWanted c = true →
       (handleChange host lokiHost change resp).2 = Except.error e →
       persistedAfter host lokiHost st change resp = st) ∧
    (∀ (tok : Value) (c : Option Value), dget change "_id" = some tok →
       getColl change = Except.ok c →
       (isWanted c = false ∨ (handleChange host lokiHost change resp).2 = Except.ok ()) →
       (runStep host lokiHost change resp).2 = Except.ok tok) := by
  refine ⟨?_, ?_, ?_, ?_⟩
  · intro e he
    unfold persistedAfter
    rw [he]
  · intro tok htok
    obtain ⟨hid, c, hg, hrest⟩ := runStep_ok_inv htok
    refine ⟨hid, ?_, ?_⟩
    · unfold persistedAfter
      rw [htok]
    · rcases hrest with hw | hok
      · exact Or.inl ⟨c, hg, hw⟩
      · exact Or.inr hok
  · intro c e hg hw hh
    unfold persistedAfter
    rw [runStep_wanted_error hg hw hh]
  · intro tok c hid hg hrest
    cases hwv : isWanted c with
    | false => rw [runStep_skip host lokiHost resp hg hwv hid]
    | true =>
      rcases hrest with hw | hok
      · rw [hwv] at hw
        cases hw
      · exact runStep_wanted_ok hg hwv hok hid

/-- C1 witness: on a concrete wanted `alert` event whose delivery gets
HTTP 500, the persisted position equals its previous value. -/
theorem resume_position_updated_iff_delivered_or_skipped_witness :
    persistedAfter "examplehost" "loki.example" (some (Value.vStr "prev")) c1doc (500, "boom") =
      some (Value.vStr "prev") :=
  (resume_position_updated_iff_delivered_or_skipped "examplehost" "loki.example"
      (some (Value.vStr "prev")) c1doc (500, "boom")).2.2.1
    (some (Value.vStr "alert")) (PyErr.deliveryError 500 "boom") rfl rfl rfl

theorem specStrField_eq_of_pyStrOrAbsent {d : Doc} {k ls : String}
    (h : pyStrOrAbsent d k "" = some ls) : specStrField d k = ls := by
  unfold pyStrOrAbsent at h
  unfold specStrField
  cases hv : dget d k with
  | none =>
    rw [hv] at h
    simp at h
    rw [h]
  | some v =>
    rw [hv] at h
    cases v <;> simp_all

theorem dget_base_row_key (host : String) (coll v : Value) :
    dget (dictInsert
      [("source", Value.vStr "unifi-mongodb-watcher"),
       ("job", Value.vStr "unifi-mongodb-watcher"),
       ("host", Value.vStr host),
       ("collection", coll)] "row_key" v) "row_key" = some v := rfl

-- C3 ---------------------------------------------------------------------

/-- C3: for a document of a wanted collection, the derived `row_key` equals
the value prescribed by the table in §4.2 of the spec (`specRowKey`): field
`key` with fallback `unknown` for the five key-keyed collections,
`log_source`, `/`, `action` with empty-string fallbacks for `inspection_log`,
`signature` with fallback `unknown` for `threat_log_view`.  For
`inspection_log` the two fields are assumed absent or strings, as the
spec's table presumes. -/
theorem row_key_matches_spec_table (host : String) (d : Doc) (s : String)
    (hc : dget d "collection" = some (Value.vStr s))
    (hw : s ∈ WANTED_COLLECTIONS)
    (hls : s = "inspection_log" → (pyStrOrAbsent d "log_source" "").isSome = true)
    (hac : s = "inspection_log" → (pyStrOrAbsent d "action" "").isSome = true) :
    ∃ L, labelsForChange host d = Except.ok L ∧ dget L "row_key" = specRowKey s d := by
  have hw7 : s = "admin_activity_log" ∨ s = "alarm" ∨ s = "alert" ∨ s = "event" ∨
      s = "inspection_log" ∨ s = "threat_log_view" ∨ s = "trigger_log" := by
    simpa [WANTED_COLLECTIONS] using hw
  rcases hw7 with rfl | rfl | rfl | rfl | rfl | rfl | rfl
  · refine ⟨dictInsert
      [("source", Value.vStr "unifi-mongodb-watcher"),
       ("job", Value.vStr "unifi-mongodb-watcher"),
       ("host", Value.vStr host),
       ("collection", Value.vStr "admin_activity_log")] "row_key"
      ((dget d "key").getD (Value.vStr "unknown")), ?_, ?_⟩
    · unfold labelsForChange
      rw [hc]
      rfl
    · rw [dget_base_row_key]
      rfl
  · refine ⟨dictInsert
      [("source", Value.vStr "unifi-mongodb-watcher"),
       ("job", Value.vStr "unifi-mongodb-watcher"),
       ("host", Value.vStr host),
       ("collection", Value.vStr "alarm")] "row_key"
      ((dget d "key").getD (Value.vStr "unknown")), ?_, ?_⟩
    · unfold labelsForChange
      rw [hc]
      rfl
    · rw [dget_base_row_key]
      rfl
  · refine ⟨dictInsert
      [("source", Value.vStr "unifi-mongodb-watcher"),
       ("job", Value.vStr "unifi-mongodb-watcher"),
       ("host", Value.vStr host),
       ("collection", Value.vStr "alert")] "row_key"
      ((dget d "key").getD (Value.vStr "unknown")), ?_, ?_⟩
    · unfold labelsForChange
      rw [hc]
      rfl
    · rw [dget_base_row_key]
      rfl
  · refine ⟨dictInsert
      [("source", Value.vStr "unifi-mongodb-watcher"),
       ("job", Value.vStr "unifi-mongodb-watcher"),
       ("host", Value.vStr host),
       ("collection", Value.vStr "event")] "row_key"
      ((dget d "key").getD (Value.vStr "unknown")), ?_, ?_⟩
    · unfold labelsForChange
      rw [hc]
      rfl
    · rw [dget_base_row_key]
      rfl
  · obtain ⟨ls, hls2⟩ := Option.isSome_iff_exists.mp (hls rfl)
    obtain ⟨ac, hac2⟩ := Option.isSome_iff_exists.mp (hac rfl)
    refine ⟨dictInsert
      [("source", Value.vStr "unifi-mongodb-watcher"),
       ("job", Value.vStr "unifi-mongodb-watcher"),
       ("host", Value.vStr host),
       ("collection", Value.vStr "inspection_log")] "row_key"
      (Value.vStr (ls ++ "/" ++ ac)), ?_, ?_⟩
    · unfold labelsForChange
      rw [hc]
      simp only [hls2, hac2]
      rfl
    · rw [dget_base_row_key]
      rw [show specRowKey "inspection_log" d =
        some (Value.vStr (specStrField d "log_source" ++ "/" ++ specStrField d "action")) from rfl]
      rw [specStrField_eq_of_pyStrOrAbsent hls2, specStrField_eq_of_pyStrOrAbsent hac2]
  · refine ⟨dictInsert
      [("source", Value.vStr "unifi-mongodb-watcher"),
       ("job", Value.vStr "unifi-mongodb-watcher"),
       ("host", Value.vStr host),
       ("collection", Value.vStr "threat_log_view")] "row_key"
      ((dget d "signature").getD (Value.vStr "unknown")), ?_, ?_⟩
    · unfold labelsForChange
      rw [hc]
      rfl
    · rw [dget_base_row_key]
      rfl
  · refine ⟨dictInsert
      [("source", Value.vStr "unifi-mongodb-watcher"),
       ("job", Value.vStr "unifi-mongodb-watcher"),
       ("host", Value.vStr host),
       ("collection", Value.vStr "trigger_log")] "row_key"
      ((dget d "key").getD (Value.vStr "unknown")), ?_, ?_⟩
    · unfold labelsForChange
      rw [hc]
      rfl
    · rw [dget_base_row_key]
      rfl

/-- C3 witness: the spec's own example — `inspection_log` with
`log_source = fw`, `action = block` derives `row_key = fw/block`. -/
theorem row_key_matches_spec_table_witness :
    ∃ L, labelsForChange "examplehost" c3doc = Except.ok L ∧
      dget L "row_key" = specRowKey "inspection_log" c3doc :=
  row_key_matches_spec_table "examplehost" c3doc "inspection_log" rfl (by decide)
    (fun _ => rfl) (fun _ => rfl)

-- C4 ---------------------------------------------------------------------

/-- C4: the Record Encoder divides `time` by 1000 exactly when its decimal
string has more than 10 characters, and the encoded delivery timestamp is the
decimal string of the (possibly divided, truncated toward zero) time times
10^9; in particular the millisecond input 1700000000000 and the second input
1700000000 both encode to "1700000000000000000". -/
theorem timestamp_normalization (host : String) (change : Doc) (nsm fd : Doc)
    (collv idv : Value) (n : Int)
    (h1 : dget change "ns" = some (Value.vMap nsm))
    (h2 : dget nsm "coll" = some collv)
    (h3 : dget change "fullDocument" = some (Value.vMap fd))
    (h4 : dget fd "_id" = some idv)
    (h5 : dget fd "time" = some (Value.vInt n)) :
    (∀ p : Payload, encodeChange host change = Except.ok p →
       p.ts = toString ((if 10 < (toString n).length then n.tdiv 1000 else n) * 1000000000)) ∧
    (encodeChange host c4docMs).map Payload.ts = Except.ok "1700000000000000000" ∧
    (encodeChange host c4docS).map Payload.ts = Except.ok "1700000000000000000" := by
  refine ⟨?_, rfl, rfl⟩
  intro p hp
  have h4a : dget (dictInsert fd "collection" collv) "_id" = some idv := by
    rw [dget_dictInsert_ne _ _ _ _ (by decide)]
    exact h4
  have h5a : dget (dictInsert (dictInsert fd "collection" collv) "_id"
      (Value.vStr (pyStr idv))) "time" = some (Value.vInt n) := by
    rw [dget_dictInsert_ne _ _ _ _ (by decide), dget_dictInsert_ne _ _ _ _ (by decide)]
    exact h5
  unfold encodeChange at hp
  rw [h1] at hp
  simp only [h2, h3, h4a, h5a] at hp
  cases hlab : labelsForChange host
      (if 10 < (toString n).length then
        dictInsert (dictInsert (dictInsert fd "collection" collv) "_id"
          (Value.vStr (pyStr idv))) "time" (Value.vInt (n.tdiv 1000))
      else
        dictInsert (dictInsert fd "collection" collv) "_id" (Value.vStr (pyStr idv))) with
  | error e =>
    rw [hlab] at hp
    simp at hp
  | ok labels =>
    rw [hlab] at hp
    simp only [Except.ok.injEq] at hp
    rw [← hp]


/-- C4 witness: both concrete example documents (millisecond and second
resolution) encode to the same nanosecond timestamp string. -/
theorem timestamp_normalization_witness :
    (encodeChange "examplehost" c4docMs).map Payload.ts = Except.ok "1700000000000000000" ∧
    (encodeChange "examplehost" c4docS).map Payload.ts = Except.ok "1700000000000000000" :=
  ⟨(timestamp_normalization "examplehost" c4docMs [("coll", Value.vStr "event")]
      [("_id", Value.vStr "d4"), ("time", Value.vInt 1700000000000),
       ("key", Value.vStr "EVT_T")]
      (Value.vStr "event") (Value.vStr "d4") 1700000000000
      rfl rfl rfl rfl rfl).2.1,
   (timestamp_normalization "examplehost" c4docS [("coll", Value.vStr "event")]
      [("_id", Value.vStr "d4"), ("time", Value.vInt 1700000000),
       ("key", Value.vStr "EVT_T")]
      (Value.vStr "event") (Value.vStr "d4") 1700000000
      rfl rfl rfl rfl rfl).2.2⟩

-- C6 ---------------------------------------------------------------------

/-- C6: a wanted-collection event whose document lacks `time` or lacks the
unique identifier `_id` makes the Record Encoder raise a KeyError (the spec's
MalformedDocumentError) before any payload is built, so the delivery step
issues no POST and propagates the error. -/
theorem missing_field_fails_encoding (host lokiHost : String) (change : Doc)
    (nsm fd : Doc) (collv : Value) (resp : Nat × String)
    (h1 : dget change "ns" = some (Value.vMap nsm))
    (h2 : dget nsm "coll" = some collv)
    (h3 : dget change "fullDocument" = some (Value.vMap fd))
    (hmiss : dget fd "_id" = none ∨ dget fd "time" = none) :
    ∃ f, (f = "_id" ∨ f = "time") ∧
      encodeChange host change = Except.error (PyErr.keyError f) ∧
      handleChange host lokiHost change resp = ([], Except.error (PyErr.keyError f)) := by
  have hpost : ∀ f : String, encodeChange host change = Except.error (PyErr.keyError f) →
      handleChange host lokiHost change resp = ([], Except.error (PyErr.keyError f)) := by
    intro f he
    unfold handleChange
    rw [he]
  cases hid : dget fd "_id" with
  | none =>
    have h4a : dget (dictInsert fd "collection" collv) "_id" = none := by
      rw [dget_dictInsert_ne _ _ _ _ (by decide)]
      exact hid
    have henc : encodeChange host change = Except.error (PyErr.keyError "_id") := by
      unfold encodeChange
      rw [h1]
      simp only [h2, h3, h4a]
    exact ⟨"_id", Or.inl rfl, henc, hpost _ henc⟩
  | some idv =>
    have ht : dget fd "time" = none := by
      rcases hmiss with h | h
      · rw [hid] at h
        cases h
      · exact h
    have h4a : dget (dictInsert fd "collection" collv) "_id" = some idv := by
      rw [dget_dictInsert_ne _ _ _ _ (by decide)]
      exact hid
    have h5a : dget (dictInsert (dictInsert fd "collection" collv) "_id"
        (Value.vStr (pyStr idv))) "time" = none := by
      rw [dget_dictInsert_ne _ _ _ _ (by decide), dget_dictInsert_ne _ _ _ _ (by decide)]
      exact ht
    have henc : encodeChange host change = Except.error (PyErr.keyError "time") := by
      unfold encodeChange
      rw [h1]
      simp only [h2, h3, h4a, h5a]
    exact ⟨"time", Or.inr rfl, henc, hpost _ henc⟩

/-- C6 witness: a concrete `alarm` event whose document has no `time` field
fails to encode with a KeyError and issues no POST. -/
theorem missing_field_fails_encoding_witness :
    ∃ f, (f = "_id" ∨ f = "time") ∧
      encodeChange "examplehost" c6doc = Except.error (PyErr.keyError f) ∧
      handleChange "examplehost" "loki.example" c6doc (200, "ok") =
        ([], Except.error (PyErr.keyError f)) :=
  missing_field_fails_encoding "examplehost" "loki.example" c6doc
    [("coll", Value.vStr "alarm")]
    [("_id", Value.vStr "d6"), ("key", Value.vStr "EVT_NO_TIME")]
    (Value.vStr "alarm") (200, "ok") rfl rfl rfl (Or.inr rfl)

-- C8 ---------------------------------------------------------------------

/-- C8: `flatten` is a total Lean function of its input (hence pure and
deterministic), and it is idempotent on already-flat mappings: when every
value of `x` is a non-mapping scalar, `flatten (flatten x) = flatten x`. -/
theorem flatten_idempotent_on_flat (x : Doc)
    (h : ∀ p ∈ x, isScalar p.2 = true) :
    flatten (flatten x "" "_") "" "_" = flatten x "" "_" := by
  have h1 : flatten x "" "_" = dictOfItems x := by
    unfold flatten
    rw [flatItems_of_scalar "_" h]
  have h2 : ∀ p ∈ dictOfItems x, isScalar p.2 = true := scalar_dictOfItems h
  rw [h1]
  unfold flatten
  rw [flatItems_of_scalar "_" h2, dictOfItems_idem]

/-- C8 witness: a concrete flat mapping satisfies the hypothesis and the
idempotence conclusion. -/
theorem flatten_idempotent_on_flat_witness :
    flatten (flatten c8doc "" "_") "" "_" = flatten c8doc "" "_" :=
  flatten_idempotent_on_flat c8doc (by decide)

-- C9 ---------------------------------------------------------------------

theorem labels_key_fallback (host : String) (d : Doc) (s : String)
    (hs : s = "admin_activity_log" ∨ s = "alarm" ∨ s = "alert" ∨ s = "event" ∨
      s = "trigger_log")
    (hc : dget d "collection" = some (Value.vStr s))
    (hnk : dget d "key" = none) :
    ∃ L, labelsForChange host d = Except.ok L ∧
      dget L "row_key" = some (Value.vStr "unknown") := by
  rcases hs with rfl | rfl | rfl | rfl | rfl
  · refine ⟨dictInsert
      [("source", Value.vStr "unifi-mongodb-watcher"),
       ("job", Value.vStr "unifi-mongodb-watcher"),
       ("host", Value.vStr host),
       ("collection", Value.vStr "admin_activity_log")] "row_key"
      ((dget d "key").getD (Value.vStr "unknown")), ?_, ?_⟩
    · unfold labelsForChange
      rw [hc]
      rfl
    · rw [dget_base_row_key, hnk]
      rfl
  · refine ⟨dictInsert
      [("source", Value.vStr "unifi-mongodb-watcher"),
       ("job", Value.vStr "unifi-mongodb-watcher"),
       ("host", Value.vStr host),
       ("collection", Value.vStr "alarm")] "row_key"
      ((dget d "key").getD (Value.vStr "unknown")), ?_, ?_⟩
    · unfold labelsForChange
      rw [hc]
      rfl
    · rw [dget_base_row_key, hnk]
      rfl
  · refine ⟨dictInsert
      [("source", Value.vStr "unifi-mongodb-watcher"),
       ("job", Value.vStr "unifi-mongodb-watcher"),
       ("host", Value.vStr host),
       ("collection", Value.vStr "alert")] "row_key"
      ((dget d "key").getD (Value.vStr "unknown")), ?_, ?_⟩
    · unfold labelsForChange
      rw [hc]
      rfl
    · rw [dget_base_row_key, hnk]
      rfl
  · refine ⟨dictInsert
      [("source", Value.vStr "unifi-mongodb-watcher"),
       ("job", Value.vStr "unifi-mongodb-watcher"),
       ("host", Value.vStr host),
       ("collection", Value.vStr "event")] "row_key"
      ((dget d "key").getD (Value.vStr "unknown")), ?_, ?_⟩
    · unfold labelsForChange
      rw [hc]
      rfl
    · rw [dget_base_row_key, hnk]
      rfl
  · refine ⟨dictInsert
      [("source", Value.vStr "unifi-mongodb-watcher"),
       ("job", Value.vStr "unifi-mongodb-watcher"),
       ("host", Value.vStr host),
       ("collection", Value.vStr "trigger_log")] "row_key"
      ((dget d "key").getD (Value.vStr "unknown")), ?_, ?_⟩
    · unfold labelsForChange
      rw [hc]
      rfl
    · rw [dget_base_row_key, hnk]
      rfl

theorem labels_signature_fallback (host : String) (d : Doc)
    (hc : dget d "collection" = some (Value.vStr "threat_log_view"))
    (hns : dget d "signature" = none) :
    ∃ L, labelsForChange host d = Except.ok L ∧
      dget L "row_key" = some (Value.vStr "unknown") := by
  refine ⟨dictInsert
    [("source", Value.vStr "unifi-mongodb-watcher"),
     ("job", Value.vStr "unifi-mongodb-watcher"),
     ("host", Value.vStr host),
     ("collection", Value.vStr "threat_log_view")] "row_key"
    ((dget d "signature").getD (Value.vStr "unknown")), ?_, ?_⟩
  · unfold labelsForChange
    rw [hc]
    rfl
  · rw [dget_base_row_key, hns]
    rfl

theorem labels_inspection_row (host : String) (d : Doc) (ls ac : String)
    (hc : dget d "collection" = some (Value.vStr "inspection_log"))
    (hls : pyStrOrAbsent d "log_source" "" = some ls)
    (hac : pyStrOrAbsent d "action" "" = some ac) :
    ∃ L, labelsForChange host d = Except.ok L ∧
      dget L "row_key" = some (Value.vStr (ls ++ "/" ++ ac)) := by
  refine ⟨dictInsert
    [("source", Value.vStr "unifi-mongodb-watcher"),
     ("job", Value.vStr "unifi-mongodb-watcher"),
     ("host", Value.vStr host),
     ("collection", Value.vStr "inspection_log")] "row_key"
    (Value.vStr (ls ++ "/" ++ ac)), ?_, ?_⟩
  · unfold labelsForChange
    rw [hc]
    simp only [hls, hac]
    rfl
  · rw [dget_base_row_key]

theorem pyStrOrAbsent_of_none {d : Doc} {k : String} (h : dget d k = none) :
    pyStrOrAbsent d k "" = some "" := by
  unfold pyStrOrAbsent
  rw [h]

theorem joined_key_mem_flatten {d m : Doc} {p f : String} {v : Value}
    (hp : p ≠ "") (hsub : dget d p = some (Value.vMap m))
    (hin : dget m f = some v) (hv : isScalar v = true) :
    (p ++ "_" ++ f) ∈ keysOf (flatten d "" "_") := by
  have hjoin : joinKey p "_" f = p ++ "_" ++ f := if_neg hp
  have hinner : (p ++ "_" ++ f, v) ∈ flatItems m p "_" := by
    rw [← hjoin]
    exact mem_flatItems_of_mem_scalar p "_" (lookup_mem hin) hv
  have hkey1 : (p ++ "_" ++ f) ∈ keysOf (flatItems m p "_") :=
    mem_keysOf_of_mem hinner
  have hkey2 : (p ++ "_" ++ f) ∈ keysOf (dictOfItems (flatItems m p "_")) :=
    mem_keysOf_dictOfItems hkey1
  obtain ⟨w, hw⟩ := exists_of_mem_keysOf hkey2
  have hjoin2 : joinKey "" "_" p = p := if_pos rfl
  have houter : (p ++ "_" ++ f, w) ∈ flatItems d "" "_" := by
    refine mem_flatItems_of_mem_map "" "_" (lookup_mem hsub) _ ?_
    rw [hjoin2]
    exact hw
  unfold flatten
  exact mem_keysOf_dictOfItems (mem_keysOf_of_mem houter)

/-- C9: label derivation operates on the un-flattened document: whenever a
row-key source field `f` of a wanted collection (`key` for the five key-keyed
collections, `signature` for `threat_log_view`, `log_source` or `action` for
`inspection_log`) occurs only inside the sub-mapping stored under a top-level
key `p` and not at top level, the derived `row_key` is the fallback value —
the literal `unknown`, or an empty component of the `/`-joined row key for
`inspection_log` — even though the flattened record contains the joined key
`p ++ "_" ++ f` ending in that field name. -/
theorem labels_derived_from_unflattened (host : String) (d m : Doc)
    (p f : String) (v : Value)
    (hnk : dget d f = none)
    (hp : p ≠ "")
    (hsub : dget d p = some (Value.vMap m))
    (hin : dget m f = some v) (hv : isScalar v = true) :
    ((p ++ "_" ++ f) ∈ keysOf (flatten d "" "_")) ∧
    (∀ s, (s = "admin_activity_log" ∨ s = "alarm" ∨ s = "alert" ∨ s = "event" ∨
        s = "trigger_log") → f = "key" →
      dget d "collection" = some (Value.vStr s) →
      ∃ L, labelsForChange host d = Except.ok L ∧
        dget L "row_key" = some (Value.vStr "unknown")) ∧
    (f = "signature" → dget d "collection" = some (Value.vStr "threat_log_view") →
      ∃ L, labelsForChange host d = Except.ok L ∧
        dget L "row_key" = some (Value.vStr "unknown")) ∧
    (∀ ac, f = "log_source" →
      dget d "collection" = some (Value.vStr "inspection_log") →
      pyStrOrAbsent d "action" "" = some ac →
      ∃ L, labelsForChange host d = Except.ok L ∧
        dget L "row_key" = some (Value.vStr ("" ++ "/" ++ ac))) ∧
    (∀ ls, f = "action" →
      dget d "collection" = some (Value.vStr "inspection_log") →
      pyStrOrAbsent d "log_source" "" = some ls →
      ∃ L, labelsForChange host d = Except.ok L ∧
        dget L "row_key" = some (Value.vStr (ls ++ "/" ++ ""))) := by
  refine ⟨joined_key_mem_flatten hp hsub hin hv, ?_, ?_, ?_, ?_⟩
  · intro s hs hf hc
    subst hf
    exact labels_key_fallback host d s hs hc hnk
  · intro hf hc
    subst hf
    exact labels_signature_fallback host d hc hnk
  · intro ac hf hc hac
    subst hf
    exact labels_inspection_row host d "" ac hc (pyStrOrAbsent_of_none hnk) hac
  · intro ls hf hc hls
    subst hf
    exact labels_inspection_row host d ls "" hc hls (pyStrOrAbsent_of_none hnk)

/-- C9 witness: an `alarm` document whose `key` occurs only inside the `sub`
sub-mapping derives row_key `unknown`, and an `inspection_log` document whose
`log_source` occurs only inside `sub` derives a row_key with an empty first
component; both flattened records contain the joined `sub_`-prefixed key. -/
theorem labels_derived_from_unflattened_witness :
    (("sub" ++ "_" ++ "key") ∈ keysOf (flatten c9doc "" "_") ∧
     ∃ L, labelsForChange "examplehost" c9doc = Except.ok L ∧
       dget L "row_key" = some (Value.vStr "unknown")) ∧
    (("sub" ++ "_" ++ "log_source") ∈ keysOf (flatten c9docIns "" "_") ∧
     ∃ L, labelsForChange "examplehost" c9docIns = Except.ok L ∧
       dget L "row_key" = some (Value.vStr ("" ++ "/" ++ "block"))) :=
  ⟨⟨(labels_derived_from_unflattened "examplehost" c9doc [("key", Value.vStr "deep")]
        "sub" "key" (Value.vStr "deep") rfl (by decide) rfl rfl rfl).1,
    (labels_derived_from_unflattened "examplehost" c9doc [("key", Value.vStr "deep")]
        "sub" "key" (Value.vStr "deep") rfl (by decide) rfl rfl rfl).2.1
      "alarm" (Or.inr (Or.inl rfl)) rfl rfl⟩,
   ⟨(labels_derived_from_unflattened "examplehost" c9docIns
        [("log_source", Value.vStr "fw")] "sub" "log_source" (Value.vStr "fw")
        rfl (by decide) rfl rfl rfl).1,
    (labels_derived_from_unflattened "examplehost" c9docIns
        [("log_source", Value.vStr "fw")] "sub" "log_source" (Value.vStr "fw")
        rfl (by decide) rfl rfl rfl).2.2.2.1
      "block" rfl rfl rfl⟩⟩

end UnifiToLoki
